import Mathlib

/-!
Shallow embedding of the sleep analytics engine of
src/sleep_tracker.py (single-file Streamlit app).

Modelling choices:
* Python floats are modelled as exact rationals (ℚ).  All the analytics
  are closed-form arithmetic on small numbers, so ℚ captures the
  intended numeric semantics.
* A pandas DataFrame of sleep logs is modelled as a chronologically
  ordered List of DailyRecord values (fetch_all_logs_df sorts by date
  ascending).  Column extraction (df['sleep_hours']) becomes List.map.
* Pythons dynamic typing at the compute_sleep_score boundary
  (float(...)/int(...) wrapped in try/except) is modelled by Option
  inputs: some q is a value that parses as a number, none is one that
  does not.
* The SQLite table sleep_logs (PRIMARY KEY date) is modelled as a list
  of rows; INSERT OR REPLACE deletes any row with the same date key and
  appends the new row.
-/

/-- One row of the sleep_logs table / one record of the DataFrame:
date (ISO string, the primary key), sleep_hours, mood. -/
structure DailyRecord where
  date : String
  sleepHours : ℚ
  mood : ℤ
deriving Repr, DecidableEq

/-- Embedding of compute_sleep_score (src/sleep_tracker.py lines 100-105):
returns float(sleep_hours) * 10.0 + int(mood) * 2.0, or None when either
conversion raises (modelled: either input is none). -/
def compute_sleep_score (sleep_hours : Option ℚ) (mood : Option ℤ) : Option ℚ :=
  match sleep_hours, mood with
  | some h, some m => some (h * 10 + (m : ℚ) * 2)
  | _, _ => none

/-- Mean of a list of rationals, sum divided by length (pandas
Series.mean on a non-empty column). -/
def listMean (xs : List ℚ) : ℚ := xs.sum / (xs.length : ℚ)

/-- Maximum of a list (pandas Series.max); 0 on the empty list, which the
code never queries. -/
def listMax : List ℚ → ℚ
  | [] => 0
  | a :: t => t.foldl max a

/-- Minimum of a list (pandas Series.min); 0 on the empty list, which the
code never queries. -/
def listMin : List ℚ → ℚ
  | [] => 0
  | a :: t => t.foldl min a

/-- Embedding of compute_variability (lines 118-122): None on an empty
DataFrame, else max - min of sleep_hours. -/
def compute_variability (df : List DailyRecord) : Option ℚ :=
  match df with
  | [] => none
  | a :: t =>
    some (listMax ((a :: t).map DailyRecord.sleepHours)
          - listMin ((a :: t).map DailyRecord.sleepHours))

/-- Title/explanation pair produced by the tip generator. -/
abbrev Tip := String × String

/-- The no-data tip (generate_tips_from_df, line 173). -/
def tipNoData : Tip :=
  ("No data", "Please log sleep for several days to receive personalized tips.")

/-- The short-sleep tip (avg < 6). -/
def tipShort : Tip :=
  ("Short Sleep (<6h)",
   "Your recent average sleep is below 6 hours. Target 7-9 hours. Try a fixed bedtime and avoid caffeine after 2pm.")

/-- The slight-deficit tip (6 <= avg < 7). -/
def tipSuboptimal : Tip :=
  ("Suboptimal Sleep (6-7h)",
   "Slight deficit. Shift bedtime earlier by 15-30 minutes and maintain consistent wake time.")

/-- The sufficient-sleep tip (avg >= 7). -/
def tipSufficient : Tip :=
  ("Sufficient Average Sleep",
   "Your weekly average is within recommended range. Focus on consistency.")

/-- The high-variability tip (max - min >= 3). -/
def tipVariability : Tip :=
  ("High Night-to-Night Variability",
   "Large variation between nights suggests an inconsistent schedule. Aim to keep bedtime/wake within 1 hour daily.")

/-- The mood-and-sleep tip (mood avg < 6 and sleep avg < 7). -/
def tipMood : Tip :=
  ("Mood & Sleep",
   "Your mood appears low when sleep is short. Improving sleep consistency may improve daytime mood.")

/-- pandas DataFrame.tail(n): the last min(n, length) rows, in order. -/
def dfTail (df : List DailyRecord) (n : ℕ) : List DailyRecord :=
  df.drop (df.length - n)

/-- Embedding of generate_tips_from_df (lines 165-201).  recent =
df.tail(days); empty window gives the single no-data tip; otherwise the
three-way average rule appends exactly one tip, then the variability
rule and the mood rule each append at most one tip. -/
def generate_tips_from_df (df : List DailyRecord) (days : ℕ := 7) : List Tip :=
  match dfTail df days with
  | [] => [tipNoData]
  | a :: t =>
    let sleeps := (a :: t).map DailyRecord.sleepHours
    let avg := listMean sleeps
    let var := listMax sleeps - listMin sleeps
    let mood_avg := listMean ((a :: t).map fun r => (r.mood : ℚ))
    (if avg < 6 then [tipShort]
     else if avg < 7 then [tipSuboptimal]
     else [tipSufficient])
    ++ (if 3 ≤ var then [tipVariability] else [])
    ++ (if mood_avg < 6 ∧ avg < 7 then [tipMood] else [])

/-- Trailing window ending at index i: of the first i+1 elements, keep
the last min(window, i+1).  This is the window pandas
Series.rolling(window, min_periods=1) averages at position i. -/
def trailingWindow (window : ℕ) (xs : List ℚ) (i : ℕ) : List ℚ :=
  (xs.take (i + 1)).drop (i + 1 - window)

/-- pandas Series.rolling(window, min_periods=1).mean(): at each index i
the mean of the trailing min(window, i+1) values. -/
def rollingMean (window : ℕ) (xs : List ℚ) : List ℚ :=
  (List.range xs.length).map fun i => listMean (trailingWindow window xs i)

/-- Embedding of rolling_stats (lines 107-116): None on an empty
DataFrame, else the pair of rolling means of sleep_hours and mood
(mood cast to float). -/
def rolling_stats (df : List DailyRecord) (window : ℕ := 7) :
    Option (List ℚ × List ℚ) :=
  match df with
  | [] => none
  | _ =>
    some (rollingMean window (df.map DailyRecord.sleepHours),
          rollingMean window (df.map fun r => ((r.mood : ℚ))))

/-- Embedding of detect_streak (lines 124-143): 0 on an empty DataFrame;
otherwise sort ascending by date, mark each row good when
sleep_hours >= threshold, and count the consecutive good rows from the
end (the reversed-loop with break is takeWhile on the reversed list). -/
def detect_streak (df : List DailyRecord) (threshold : ℚ := 7) : ℕ :=
  match df with
  | [] => 0
  | _ =>
    let df_sorted := df.insertionSort fun r s => r.date ≤ s.date
    let good := df_sorted.map fun r => decide (threshold ≤ r.sleepHours)
    (good.reverse.takeWhile id).length

/-- Sum over indices 0..n-1 of f. -/
def idxSum (n : ℕ) (f : ℕ → ℚ) : ℚ := ∑ i ∈ Finset.range n, f i

/-- Value of the series y at index i (0 past the end, never queried). -/
def yval (y : List ℚ) (i : ℕ) : ℚ := y.getD i 0

/-- Slope of the degree-1 ordinary-least-squares fit of the points
(i, y i) for i = 0..n-1, the first coefficient np.polyfit(x, y, 1)
computes: (n * Sxy - Sx * Sy) / (n * Sxx - Sx^2). -/
def olsSlope (y : List ℚ) : ℚ :=
  let n : ℚ := (y.length : ℚ)
  let sx := idxSum y.length fun i => (i : ℚ)
  let sxx := idxSum y.length fun i => (i : ℚ) ^ 2
  let sy := idxSum y.length fun i => yval y i
  let sxy := idxSum y.length fun i => (i : ℚ) * yval y i
  (n * sxy - sx * sy) / (n * sxx - sx ^ 2)

/-- Intercept of the same least-squares fit:
(Sy - slope * Sx) / n. -/
def olsIntercept (y : List ℚ) : ℚ :=
  let n : ℚ := (y.length : ℚ)
  let sx := idxSum y.length fun i => (i : ℚ)
  let sy := idxSum y.length fun i => yval y i
  (sy - olsSlope y * sx) / n

/-- Embedding of predict_next_sleep (lines 145-160): None when fewer
than 3 records; else fit slope/intercept by degree-1 least squares on
(index, sleep_hours) with index 0..n-1 and return slope * n + intercept. -/
def predict_next_sleep (df : List DailyRecord) : Option ℚ :=
  if df.length < 3 then none
  else
    let y := df.map DailyRecord.sleepHours
    some (olsSlope y * (y.length : ℚ) + olsIntercept y)

/-- Sum of squared residuals of the line a*x + b against the points
(i, y i), i = 0..n-1: the objective least squares minimises. -/
def sse (y : List ℚ) (a b : ℚ) : ℚ :=
  idxSum y.length fun i => (yval y i - (a * (i : ℚ) + b)) ^ 2

/-- One row of the SQLite table sleep_logs (lines 44-52): date is the
PRIMARY KEY; sleep_score is the stored derived column (REAL, may be
NULL). -/
structure LogRow where
  date : String
  sleep_hours : ℚ
  mood : ℤ
  tips_applied : String
  sleep_score : Option ℚ
deriving Repr, DecidableEq

/-- The table as a list of rows. -/
abbrev Store := List LogRow

/-- Embedding of insert_or_replace_log (lines 59-70): compute the score,
then INSERT OR REPLACE the row keyed on date (SQLite deletes any row
with the conflicting primary key and inserts the new row). -/
def insert_or_replace_log (t : Store) (date_iso : String) (sleep_hours : ℚ)
    (mood : ℤ) (tips_applied : String) : Store :=
  (t.filter fun r => r.date ≠ date_iso)
    ++ [⟨date_iso, sleep_hours, mood, tips_applied,
         compute_sleep_score (some sleep_hours) (some mood)⟩]

/-- One pending write: the argument tuple of insert_or_replace_log. -/
structure WriteReq where
  date_iso : String
  sleep_hours : ℚ
  mood : ℤ
  tips_applied : String
deriving Repr, DecidableEq

/-- Apply a sequence of writes to a store, oldest first. -/
def applyWrites (t : Store) (ws : List WriteReq) : Store :=
  ws.foldl (fun s w => insert_or_replace_log s w.date_iso w.sleep_hours w.mood w.tips_applied) t

/-- Date keys currently present in the store. -/
def storeKeys (t : Store) : List String := t.map LogRow.date

/-! Helper lemmas about list folds, windows and sums. -/

theorem foldl_max_mem (t : List ℚ) : ∀ a : ℚ, t.foldl max a ∈ a :: t := by
  induction t with
  | nil => intro a; simp
  | cons b t ih =>
    intro a
    simp only [List.foldl_cons]
    rcases List.mem_cons.1 (ih (max a b)) with h1 | h1
    · rcases max_choice a b with h2 | h2 <;> rw [h1, h2] <;> simp
    · simp [h1]

theorem le_foldl_max (t : List ℚ) : ∀ a x : ℚ, x ∈ a :: t → x ≤ t.foldl max a := by
  induction t with
  | nil =>
    intro a x hx
    simp only [List.mem_singleton] at hx
    simp [hx]
  | cons b t ih =>
    intro a x hx
    simp only [List.foldl_cons]
    have hself : max a b ≤ t.foldl max (max a b) := ih (max a b) _ (by simp)
    rcases List.mem_cons.1 hx with h1 | h1
    · subst h1; exact le_trans (le_max_left _ b) hself
    · rcases List.mem_cons.1 h1 with h2 | h2
      · subst h2; exact le_trans (le_max_right a _) hself
      · exact ih (max a b) x (List.mem_cons_of_mem _ h2)

theorem foldl_min_mem (t : List ℚ) : ∀ a : ℚ, t.foldl min a ∈ a :: t := by
  induction t with
  | nil => intro a; simp
  | cons b t ih =>
    intro a
    simp only [List.foldl_cons]
    rcases List.mem_cons.1 (ih (min a b)) with h1 | h1
    · rcases min_choice a b with h2 | h2 <;> rw [h1, h2] <;> simp
    · simp [h1]

theorem foldl_min_le (t : List ℚ) : ∀ a x : ℚ, x ∈ a :: t → t.foldl min a ≤ x := by
  induction t with
  | nil =>
    intro a x hx
    simp only [List.mem_singleton] at hx
    simp [hx]
  | cons b t ih =>
    intro a x hx
    simp only [List.foldl_cons]
    have hself : t.foldl min (min a b) ≤ min a b := ih (min a b) _ (by simp)
    rcases List.mem_cons.1 hx with h1 | h1
    · subst h1; exact le_trans hself (min_le_left _ b)
    · rcases List.mem_cons.1 h1 with h2 | h2
      · subst h2; exact le_trans hself (min_le_right a _)
      · exact ih (min a b) x (List.mem_cons_of_mem _ h2)

/-- listMax of a non-empty list is one of its elements. -/
theorem listMax_mem (a : ℚ) (t : List ℚ) : listMax (a :: t) ∈ a :: t :=
  foldl_max_mem t a

/-- Every element is at most listMax. -/
theorem le_listMax (a : ℚ) (t : List ℚ) (x : ℚ) (hx : x ∈ a :: t) :
    x ≤ listMax (a :: t) :=
  le_foldl_max t a x hx

/-- listMin of a non-empty list is one of its elements. -/
theorem listMin_mem (a : ℚ) (t : List ℚ) : listMin (a :: t) ∈ a :: t :=
  foldl_min_mem t a

/-- listMin is at most every element. -/
theorem listMin_le (a : ℚ) (t : List ℚ) (x : ℚ) (hx : x ∈ a :: t) :
    listMin (a :: t) ≤ x :=
  foldl_min_le t a x hx

/-- Unfolding lemma: an empty lookback window produces the single
no-data tip. -/
theorem generate_tips_eq_nil (df : List DailyRecord) (days : ℕ)
    (h : dfTail df days = []) : generate_tips_from_df df days = [tipNoData] := by
  unfold generate_tips_from_df
  rw [h]

/-- Unfolding lemma: a non-empty lookback window produces the three-way
average tip, then the variability tip, then the mood tip. -/
theorem generate_tips_eq_cons (df : List DailyRecord) (days : ℕ)
    (a : DailyRecord) (t : List DailyRecord) (h : dfTail df days = a :: t) :
    generate_tips_from_df df days =
      (if listMean ((a :: t).map DailyRecord.sleepHours) < 6 then [tipShort]
       else if listMean ((a :: t).map DailyRecord.sleepHours) < 7 then [tipSuboptimal]
       else [tipSufficient])
      ++ (if 3 ≤ listMax ((a :: t).map DailyRecord.sleepHours)
              - listMin ((a :: t).map DailyRecord.sleepHours)
          then [tipVariability] else [])
      ++ (if listMean ((a :: t).map fun r => (r.mood : ℚ)) < 6
              ∧ listMean ((a :: t).map DailyRecord.sleepHours) < 7
          then [tipMood] else []) := by
  unfold generate_tips_from_df
  rw [h]

/-- C5: for all valid inputs, sleep hours in [0,24] and integer mood in
[1,10], compute_sleep_score returns exactly sleepHours * 10 + mood * 2. -/
theorem C5_compute_score (h : ℚ) (m : ℤ) (hlo : 0 ≤ h) (hhi : h ≤ 24)
    (mlo : 1 ≤ m) (mhi : m ≤ 10) :
    compute_sleep_score (some h) (some m) = some (h * 10 + (m : ℚ) * 2) := rfl

/-- Witness for C5 at sleep 8, mood 7: the score is 94. -/
theorem C5_compute_score_witness :
    compute_sleep_score (some 8) (some 7) = some 94 := by
  have h := C5_compute_score 8 7 (by norm_num) (by norm_num) (by norm_num) (by norm_num)
  rw [h]
  norm_num

/-- C8: compute_sleep_score returns the null value exactly when either
input is non-numeric (modelled as none), and otherwise returns the real
number sleepHours * 10 + mood * 2. -/
theorem C8_compute_score_null (hq : Option ℚ) (mq : Option ℤ) :
    (compute_sleep_score hq mq = none ↔ hq = none ∨ mq = none)
    ∧ (∀ h m, hq = some h → mq = some m →
        compute_sleep_score hq mq = some (h * 10 + (m : ℚ) * 2)) := by
  constructor
  · cases hq <;> cases mq <;> simp [compute_sleep_score]
  · rintro h m rfl rfl
    rfl

/-- Witness for C8 at numeric inputs 8 and 7. -/
theorem C8_compute_score_null_witness :
    compute_sleep_score (some 8) (some 7) = some (8 * 10 + ((7 : ℤ) : ℚ) * 2) :=
  (C8_compute_score_null (some 8) (some 7)).2 8 7 rfl rfl

/-- C6: compute_variability returns none on the empty sequence; on a
non-empty sequence it returns max - min of sleep hours over the full
sequence (witnessed by an attained maximum and minimum); on sleep hours
[5, 9, 7] it returns 4. -/
theorem C6_variability :
    compute_variability [] = none
    ∧ (∀ (a : DailyRecord) (t : List DailyRecord), ∃ hi lo : ℚ,
        compute_variability (a :: t) = some (hi - lo)
        ∧ hi ∈ (a :: t).map DailyRecord.sleepHours
        ∧ lo ∈ (a :: t).map DailyRecord.sleepHours
        ∧ (∀ s ∈ (a :: t).map DailyRecord.sleepHours, s ≤ hi)
        ∧ (∀ s ∈ (a :: t).map DailyRecord.sleepHours, lo ≤ s))
    ∧ compute_variability
        [⟨"2024-01-01", 5, 5⟩, ⟨"2024-01-02", 9, 5⟩, ⟨"2024-01-03", 7, 5⟩]
        = some 4 := by
  refine ⟨rfl, ?_, by norm_num [compute_variability, listMax, listMin,
    List.foldl_cons, max_def, min_def]⟩
  intro a t
  refine ⟨listMax ((a :: t).map DailyRecord.sleepHours),
          listMin ((a :: t).map DailyRecord.sleepHours), rfl, ?_, ?_, ?_, ?_⟩
  · rw [List.map_cons]
    exact listMax_mem _ _
  · rw [List.map_cons]
    exact listMin_mem _ _
  · rw [List.map_cons]
    exact fun s hs => le_listMax _ _ s hs
  · rw [List.map_cons]
    exact fun s hs => listMin_le _ _ s hs

/-- C10: generate_tips_from_df always returns between one and three
tips, never an empty list, for every record sequence and lookback. -/
theorem C10_tips_count (df : List DailyRecord) (days : ℕ) :
    1 ≤ (generate_tips_from_df df days).length
    ∧ (generate_tips_from_df df days).length ≤ 3 := by
  rcases h : dfTail df days with _ | ⟨a, t⟩
  · rw [generate_tips_eq_nil df days h]
    simp
  · rw [generate_tips_eq_cons df days a t h]
    split_ifs <;> simp

/-- C1: with lookback 7 the tip generator returns exactly the no-data
tip on an empty window; on a non-empty window it returns exactly one of
the three mean-sleep tips (mean < 6 short, else mean < 7 slight deficit,
else sufficient), then the high-variability tip iff max - min >= 3, then
the mood-and-sleep tip iff mean mood < 6 and mean sleep < 7; a window
with mean sleep 5.5, mean mood 5 and variability 4 yields exactly the
short-sleep, high-variability and mood-and-sleep tips in that order. -/
theorem C1_generate_tips (df : List DailyRecord) :
    (dfTail df 7 = [] → generate_tips_from_df df 7 = [tipNoData])
    ∧ (∀ a t, dfTail df 7 = a :: t →
        generate_tips_from_df df 7 =
          (if listMean ((a :: t).map DailyRecord.sleepHours) < 6 then [tipShort]
           else if listMean ((a :: t).map DailyRecord.sleepHours) < 7 then [tipSuboptimal]
           else [tipSufficient])
          ++ (if 3 ≤ listMax ((a :: t).map DailyRecord.sleepHours)
                  - listMin ((a :: t).map DailyRecord.sleepHours)
              then [tipVariability] else [])
          ++ (if listMean ((a :: t).map fun r => (r.mood : ℚ)) < 6
                  ∧ listMean ((a :: t).map DailyRecord.sleepHours) < 7
              then [tipMood] else []))
    ∧ (∀ a t, dfTail df 7 = a :: t →
        listMean ((a :: t).map DailyRecord.sleepHours) = 11 / 2 →
        listMean ((a :: t).map fun r => (r.mood : ℚ)) = 5 →
        listMax ((a :: t).map DailyRecord.sleepHours)
          - listMin ((a :: t).map DailyRecord.sleepHours) = 4 →
        generate_tips_from_df df 7 = [tipShort, tipVariability, tipMood]) := by
  refine ⟨fun h => generate_tips_eq_nil df 7 h,
          fun a t h => generate_tips_eq_cons df 7 a t h, ?_⟩
  intro a t h havg hmood hvar
  rw [generate_tips_eq_cons df 7 a t h, havg, hmood, hvar]
  norm_num

/-- Witness for C1: two records with sleep hours 3.5 and 7.5 and moods 5
and 5 give window mean sleep 5.5, mean mood 5 and variability 4, and the
tips are exactly short-sleep, high-variability, mood-and-sleep. -/
theorem C1_generate_tips_witness :
    generate_tips_from_df
      [⟨"2024-01-01", 7 / 2, 5⟩, ⟨"2024-01-02", 15 / 2, 5⟩] 7
      = [tipShort, tipVariability, tipMood] := by
  apply (C1_generate_tips
      [⟨"2024-01-01", 7 / 2, 5⟩, ⟨"2024-01-02", 15 / 2, 5⟩]).2.2
      ⟨"2024-01-01", 7 / 2, 5⟩ [⟨"2024-01-02", 15 / 2, 5⟩] rfl
  · norm_num [listMean]
  · norm_num [listMean]
  · norm_num [listMax, listMin, List.foldl_cons, max_def, min_def]

/-- rollingMean preserves the series length. -/
theorem rollingMean_length (w : ℕ) (xs : List ℚ) :
    (rollingMean w xs).length = xs.length := by
  simp [rollingMean]

/-- Value of rollingMean at an in-range index. -/
theorem rollingMean_getD (w : ℕ) (xs : List ℚ) (i : ℕ) (h : i < xs.length) :
    (rollingMean w xs).getD i 0 = listMean (trailingWindow w xs i) := by
  have h2 : i < (rollingMean w xs).length := by
    rw [rollingMean_length]
    exact h
  rw [List.getD_eq_getElem?_getD, List.getElem?_eq_getElem h2]
  simp [rollingMean]

/-- The trailing window at index i has min(window, i+1) elements. -/
theorem trailingWindow_length (w : ℕ) (xs : List ℚ) (i : ℕ) (h : i < xs.length) :
    (trailingWindow w xs i).length = min w (i + 1) := by
  simp only [trailingWindow, List.length_drop, List.length_take]
  omega

/-- With window 1 the trailing window at i is the singleton at index i. -/
theorem trailingWindow_one (xs : List ℚ) (i : ℕ) (h : i < xs.length) :
    trailingWindow 1 xs i = [xs[i]] := by
  unfold trailingWindow
  rw [Nat.add_sub_cancel, ← List.take_drop, List.drop_eq_getElem_cons h]
  rfl

/-- Mean of a singleton. -/
theorem listMean_singleton (x : ℚ) : listMean [x] = x := by
  simp [listMean]

/-- With window 1 the rolling mean is the original series. -/
theorem rollingMean_one (xs : List ℚ) : rollingMean 1 xs = xs := by
  apply List.ext_getElem (by rw [rollingMean_length])
  intro i h1 h2
  simp only [rollingMean, List.getElem_map, List.getElem_range]
  rw [trailingWindow_one xs i h2, listMean_singleton]

/-- With window at least the series length, the trailing window at the
final index is the whole series. -/
theorem trailingWindow_full (w : ℕ) (xs : List ℚ) (hne : xs ≠ [])
    (hw : xs.length ≤ w) : trailingWindow w xs (xs.length - 1) = xs := by
  have hl : 0 < xs.length := List.length_pos.mpr hne
  unfold trailingWindow
  have h1 : xs.length - 1 + 1 = xs.length := by omega
  rw [h1]
  have h2 : xs.length - w = 0 := by omega
  rw [h2, List.drop_zero, List.take_length]

/-- C3: on a non-empty record sequence with window at least 1,
rolling_stats returns the pair of series whose value at each index i is
the mean of the trailing min(window, i+1) sleep-hours (resp. mood)
values; with window 1 both series are the original columns; with window
at least the series length the value at the final index is the overall
mean. -/
theorem C3_rolling_stats (df : List DailyRecord) (w : ℕ) (hdf : df ≠ [])
    (hw : 1 ≤ w) :
    ∃ rs rm, rolling_stats df w = some (rs, rm)
    ∧ rs.length = df.length
    ∧ rm.length = df.length
    ∧ (∀ i, i < df.length →
        rs.getD i 0 = listMean (trailingWindow w (df.map DailyRecord.sleepHours) i)
        ∧ rm.getD i 0 = listMean (trailingWindow w (df.map fun r => (r.mood : ℚ)) i)
        ∧ (trailingWindow w (df.map DailyRecord.sleepHours) i).length = min w (i + 1))
    ∧ (w = 1 → rs = df.map DailyRecord.sleepHours
        ∧ rm = df.map fun r => (r.mood : ℚ))
    ∧ (df.length ≤ w →
        rs.getD (df.length - 1) 0 = listMean (df.map DailyRecord.sleepHours)
        ∧ rm.getD (df.length - 1) 0 = listMean (df.map fun r => (r.mood : ℚ))) := by
  match df, hdf with
  | a :: t, _ =>
    refine ⟨rollingMean w ((a :: t).map DailyRecord.sleepHours),
            rollingMean w ((a :: t).map fun r => (r.mood : ℚ)),
            by rfl, by simp [rollingMean_length], by simp [rollingMean_length],
            ?_, ?_, ?_⟩
    · intro i hi
      refine ⟨rollingMean_getD _ _ _ (by simpa using hi),
              rollingMean_getD _ _ _ (by simpa using hi),
              trailingWindow_length _ _ _ (by simpa using hi)⟩
    · intro h1
      subst h1
      exact ⟨rollingMean_one _, rollingMean_one _⟩
    · intro hlen
      constructor
      · rw [show ((a :: t) : List DailyRecord).length
              = ((a :: t).map DailyRecord.sleepHours).length by simp,
           rollingMean_getD _ _ _ (by simp),
           trailingWindow_full _ _ (by simp) (by simpa using hlen)]
      · rw [show ((a :: t) : List DailyRecord).length
              = ((a :: t).map fun r => (r.mood : ℚ)).length by simp,
           rollingMean_getD _ _ _ (by simp),
           trailingWindow_full _ _ (by simp) (by simpa using hlen)]

/-- Witness for C3: one record with sleep 8 and mood 7, window 1, gives
back exactly the original columns. -/
theorem C3_rolling_stats_witness :
    rolling_stats [⟨"2024-01-01", 8, 7⟩] 1 = some ([8], [7]) := by
  obtain ⟨rs, rm, heq, _, _, _, hone, _⟩ :=
    C3_rolling_stats [⟨"2024-01-01", 8, 7⟩] 1 (by simp) (le_refl 1)
  obtain ⟨hs, hm⟩ := hone rfl
  rw [heq, hs, hm]
  rfl

/-- takeWhile keeps the whole list when the predicate holds everywhere. -/
theorem takeWhile_of_all {α : Type} (p : α → Bool) :
    ∀ l : List α, (∀ x ∈ l, p x = true) → l.takeWhile p = l := by
  intro l
  induction l with
  | nil => intro _; rfl
  | cons a t ih =>
    intro h
    rw [List.takeWhile_cons_of_pos (h a (by simp))]
    rw [ih fun x hx => h x (List.mem_cons_of_mem _ hx)]

/-- Core characterization of detect_streak on date-sorted input: the
count of trailing records, from the most recent backward, whose sleep
hours meet the threshold. -/
theorem detect_streak_eq_takeWhile (df : List DailyRecord) (threshold : ℚ)
    (hs : List.Sorted (fun r s : DailyRecord => r.date ≤ s.date) df) :
    detect_streak df threshold =
      (df.reverse.takeWhile fun r => decide (threshold ≤ r.sleepHours)).length := by
  cases df with
  | nil => rfl
  | cons a t =>
    show ((((a :: t).insertionSort fun r s => r.date ≤ s.date).map
        fun r => decide (threshold ≤ r.sleepHours)).reverse.takeWhile id).length = _
    rw [List.Sorted.insertionSort_eq hs, ← List.map_reverse, List.takeWhile_map,
        List.length_map]
    rfl

/-- C4: on a date-sorted record sequence, detect_streak counts the
consecutive trailing records (most recent backward) with sleep hours at
least the threshold; it is 0 on the empty sequence, the full length on
an all-qualifying sequence, and 0 whenever the most recent record fails
the threshold. -/
theorem C4_detect_streak (df : List DailyRecord) (threshold : ℚ)
    (hs : List.Sorted (fun r s : DailyRecord => r.date ≤ s.date) df) :
    detect_streak df threshold =
      (df.reverse.takeWhile fun r => decide (threshold ≤ r.sleepHours)).length
    ∧ (df = [] → detect_streak df threshold = 0)
    ∧ ((∀ r ∈ df, threshold ≤ r.sleepHours) → detect_streak df threshold = df.length)
    ∧ (∀ (rlast : DailyRecord) (rest : List DailyRecord),
        df = rest ++ [rlast] → rlast.sleepHours < threshold →
        detect_streak df threshold = 0) := by
  have core := detect_streak_eq_takeWhile df threshold hs
  refine ⟨core, fun h => by subst h; rfl, ?_, ?_⟩
  · intro hall
    rw [core, takeWhile_of_all _ _ fun r hr =>
      decide_eq_true (hall r (List.mem_reverse.1 hr)), List.length_reverse]
  · intro rlast rest hdf hfail
    have hfalse : decide (threshold ≤ rlast.sleepHours) = false := by
      simp [not_le.mpr hfail]
    rw [core, hdf, List.reverse_append]
    simp [List.takeWhile_cons, hfalse]

/-- Witness for C4: two sorted records where the most recent sleeps 6
hours (below the threshold 7) give streak 0 despite the earlier 8-hour
night. -/
theorem C4_detect_streak_witness :
    detect_streak [⟨"2024-01-01", 8, 7⟩, ⟨"2024-01-02", 6, 7⟩] 7 = 0 := by
  have h := (C4_detect_streak [⟨"2024-01-01", 8, 7⟩, ⟨"2024-01-02", 6, 7⟩] 7
    (by simp [List.sorted_cons]; decide)).2.2.2
  exact h ⟨"2024-01-02", 6, 7⟩ [⟨"2024-01-01", 8, 7⟩] rfl (by norm_num)

/-- Upsert preserves distinctness of the date keys. -/
theorem upsert_keys_nodup (t : Store) (d : String) (h : ℚ) (m : ℤ)
    (tips : String) (hn : (storeKeys t).Nodup) :
    (storeKeys (insert_or_replace_log t d h m tips)).Nodup := by
  unfold insert_or_replace_log storeKeys
  rw [List.map_append, List.nodup_append]
  refine ⟨?_, by simp, ?_⟩
  · exact List.Nodup.sublist (List.Sublist.map _ (List.filter_sublist _)) hn
  · intro x hx hx2
    simp only [List.map_cons, List.map_nil, List.mem_singleton] at hx2
    subst hx2
    simp only [List.mem_map, List.mem_filter] at hx
    obtain ⟨r, ⟨_, hr⟩, hrd⟩ := hx
    rw [hrd] at hr
    simp at hr

/-- A sequence of writes from a store with distinct date keys leaves the
keys distinct. -/
theorem applyWrites_nodup :
    ∀ (ws : List WriteReq) (t : Store), (storeKeys t).Nodup →
      (storeKeys (applyWrites t ws)).Nodup := by
  intro ws
  induction ws with
  | nil => intro t h; exact h
  | cons w ws ih =>
    intro t h
    exact ih _ (upsert_keys_nodup t w.date_iso w.sleep_hours w.mood w.tips_applied h)

/-- C9: insert_or_replace_log is idempotent (writing the same argument
tuple twice equals writing it once), and any sequence of writes keeps at
most one row per date key. -/
theorem C9_upsert :
    (∀ (t : Store) (d : String) (h : ℚ) (m : ℤ) (tips : String),
      insert_or_replace_log (insert_or_replace_log t d h m tips) d h m tips
        = insert_or_replace_log t d h m tips)
    ∧ (∀ (ws : List WriteReq) (t : Store), (storeKeys t).Nodup →
      (storeKeys (applyWrites t ws)).Nodup) := by
  refine ⟨?_, applyWrites_nodup⟩
  intro t d h m tips
  unfold insert_or_replace_log
  simp [List.filter_append, List.filter_filter]

/-- Witness for C9: a double write of the same log to the empty store
equals the single write, and keys stay distinct. -/
theorem C9_upsert_witness :
    insert_or_replace_log (insert_or_replace_log [] "2024-01-01" 8 7 "")
        "2024-01-01" 8 7 ""
      = insert_or_replace_log [] "2024-01-01" 8 7 ""
    ∧ (storeKeys (applyWrites [] [⟨"2024-01-01", 8, 7, ""⟩])).Nodup :=
  ⟨C9_upsert.1 [] "2024-01-01" 8 7 "",
   C9_upsert.2 [⟨"2024-01-01", 8, 7, ""⟩] [] (by simp [storeKeys])⟩

/-- C7: predict_next_sleep returns None exactly on sequences of fewer
than 3 records, and returns a value on every sequence of 3 or more. -/
theorem C7_predict_insufficient (df : List DailyRecord) :
    (df.length < 3 → predict_next_sleep df = none)
    ∧ (3 ≤ df.length → ∃ q, predict_next_sleep df = some q) := by
  constructor
  · intro h
    unfold predict_next_sleep
    rw [if_pos h]
  · intro h
    unfold predict_next_sleep
    rw [if_neg (by omega)]
    exact ⟨_, rfl⟩

/-- Witness for C7: two records are not enough, prediction is None. -/
theorem C7_predict_insufficient_witness :
    predict_next_sleep [⟨"2024-01-01", 8, 7⟩, ⟨"2024-01-02", 7, 7⟩] = none :=
  (C7_predict_insufficient [⟨"2024-01-01", 8, 7⟩, ⟨"2024-01-02", 7, 7⟩]).1
    (by decide)

/-- Gauss sum of indices 0..n-1 as a rational. -/
theorem idxSum_id (n : ℕ) :
    idxSum n (fun i => (i : ℚ)) = (n : ℚ) * ((n : ℚ) - 1) / 2 := by
  induction n with
  | zero => simp [idxSum]
  | succ k ih =>
    rw [idxSum, Finset.sum_range_succ]
    rw [idxSum] at ih
    rw [ih]
    push_cast
    ring

/-- Sum of squared indices 0..n-1 as a rational. -/
theorem idxSum_sq (n : ℕ) :
    idxSum n (fun i => (i : ℚ) ^ 2)
      = (n : ℚ) * ((n : ℚ) - 1) * (2 * (n : ℚ) - 1) / 6 := by
  induction n with
  | zero => simp [idxSum]
  | succ k ih =>
    rw [idxSum, Finset.sum_range_succ]
    rw [idxSum] at ih
    rw [ih]
    push_cast
    ring

/-- The least-squares denominator n * Sxx - Sx^2 in closed form. -/
theorem ols_denom_eq (n : ℕ) :
    (n : ℚ) * idxSum n (fun i => (i : ℚ) ^ 2)
        - (idxSum n fun i => (i : ℚ)) ^ 2
      = (n : ℚ) ^ 2 * ((n : ℚ) ^ 2 - 1) / 12 := by
  rw [idxSum_id, idxSum_sq]
  ring

/-- The least-squares denominator is positive once there are at least
two sample points. -/
theorem ols_denom_pos (n : ℕ) (hn : 2 ≤ n) :
    0 < (n : ℚ) * idxSum n (fun i => (i : ℚ) ^ 2)
        - (idxSum n fun i => (i : ℚ)) ^ 2 := by
  rw [ols_denom_eq]
  have h2 : (2 : ℚ) ≤ (n : ℚ) := by exact_mod_cast hn
  have h4 : (4 : ℚ) ≤ (n : ℚ) ^ 2 := by nlinarith [sq_nonneg ((n : ℚ) - 2)]
  have hnum : 0 < (n : ℚ) ^ 2 * ((n : ℚ) ^ 2 - 1) := by nlinarith [h4]
  exact div_pos hnum (by norm_num)

/-- First normal equation of the least-squares fit: the residuals of the
fitted line sum to zero. -/
theorem ols_resid_sum (y : List ℚ) (hn : 2 ≤ y.length) :
    idxSum y.length
      (fun i => yval y i - (olsSlope y * (i : ℚ) + olsIntercept y)) = 0 := by
  have hnq : (0 : ℚ) < (y.length : ℚ) := by
    exact_mod_cast Nat.lt_of_lt_of_le Nat.zero_lt_two hn
  have expand : idxSum y.length
      (fun i => yval y i - (olsSlope y * (i : ℚ) + olsIntercept y))
      = (idxSum y.length fun i => yval y i)
        - olsSlope y * (idxSum y.length fun i => (i : ℚ))
        - (y.length : ℚ) * olsIntercept y := by
    unfold idxSum
    rw [Finset.sum_sub_distrib, Finset.sum_add_distrib, ← Finset.mul_sum,
        Finset.sum_const, Finset.card_range, nsmul_eq_mul]
    ring
  rw [expand]
  simp only [olsIntercept]
  field_simp

/-- Second normal equation: the residuals of the fitted line are
orthogonal to the index regressor. -/
theorem ols_resid_dot (y : List ℚ) (hn : 2 ≤ y.length) :
    idxSum y.length
      (fun i => (i : ℚ) * (yval y i - (olsSlope y * (i : ℚ) + olsIntercept y)))
      = 0 := by
  have hnq : (0 : ℚ) < (y.length : ℚ) := by
    exact_mod_cast Nat.lt_of_lt_of_le Nat.zero_lt_two hn
  have hD := ols_denom_pos y.length hn
  have expand : idxSum y.length
      (fun i => (i : ℚ) * (yval y i - (olsSlope y * (i : ℚ) + olsIntercept y)))
      = (idxSum y.length fun i => (i : ℚ) * yval y i)
        - (olsSlope y * (idxSum y.length fun i => (i : ℚ) ^ 2)
           + olsIntercept y * (idxSum y.length fun i => (i : ℚ))) := by
    unfold idxSum
    rw [Finset.sum_congr rfl (fun (i : ℕ) _ => show
          (i : ℚ) * (yval y i - (olsSlope y * (i : ℚ) + olsIntercept y))
            = (i : ℚ) * yval y i
              - (olsSlope y * (i : ℚ) ^ 2 + olsIntercept y * (i : ℚ)) by ring)]
    rw [Finset.sum_sub_distrib, Finset.sum_add_distrib, ← Finset.mul_sum,
        ← Finset.mul_sum]
  rw [expand]
  have hs : olsSlope y
      * ((y.length : ℚ) * (idxSum y.length fun i => (i : ℚ) ^ 2)
         - (idxSum y.length fun i => (i : ℚ)) ^ 2)
      = (y.length : ℚ) * (idxSum y.length fun i => (i : ℚ) * yval y i)
        - (idxSum y.length fun i => (i : ℚ))
          * (idxSum y.length fun i => yval y i) := by
    simp only [olsSlope]
    field_simp
  have hc : (y.length : ℚ) * olsIntercept y
      = (idxSum y.length fun i => yval y i)
        - olsSlope y * (idxSum y.length fun i => (i : ℚ)) := by
    simp only [olsIntercept]
    field_simp
  have key : (y.length : ℚ)
      * ((idxSum y.length fun i => (i : ℚ) * yval y i)
         - (olsSlope y * (idxSum y.length fun i => (i : ℚ) ^ 2)
            + olsIntercept y * (idxSum y.length fun i => (i : ℚ)))) = 0 := by
    linear_combination (-(1 : ℚ)) * hs
      - (idxSum y.length fun i => (i : ℚ)) * hc
  exact (mul_eq_zero.mp key).resolve_left hnq.ne'

/-- Decomposition of the sum of squared errors of any candidate line as
the fitted-line error plus a sum of squares: the cross terms vanish by
the normal equations. -/
theorem sse_decomp (y : List ℚ) (hn : 2 ≤ y.length) (a b : ℚ) :
    sse y a b
      = sse y (olsSlope y) (olsIntercept y)
        + idxSum y.length
            (fun i => ((olsSlope y - a) * (i : ℚ) + (olsIntercept y - b)) ^ 2) := by
  have h0 := ols_resid_sum y hn
  have h1 := ols_resid_dot y hn
  unfold sse idxSum
  unfold idxSum at h0 h1
  rw [Finset.sum_congr rfl (fun (i : ℕ) _ => show
        (yval y i - (a * (i : ℚ) + b)) ^ 2
          = (yval y i - (olsSlope y * (i : ℚ) + olsIntercept y)) ^ 2
            + ((olsSlope y - a) * (i : ℚ) + (olsIntercept y - b)) ^ 2
            + (2 * (olsSlope y - a))
              * ((i : ℚ) * (yval y i - (olsSlope y * (i : ℚ) + olsIntercept y)))
            + (2 * (olsIntercept y - b))
              * (yval y i - (olsSlope y * (i : ℚ) + olsIntercept y)) by ring)]
  rw [Finset.sum_add_distrib, Finset.sum_add_distrib, Finset.sum_add_distrib,
      ← Finset.mul_sum, ← Finset.mul_sum, h0, h1]
  ring

/-- The fitted line minimises the sum of squared errors over all lines. -/
theorem ols_min (y : List ℚ) (hn : 2 ≤ y.length) (a b : ℚ) :
    sse y (olsSlope y) (olsIntercept y) ≤ sse y a b := by
  rw [sse_decomp y hn a b]
  have hpos : 0 ≤ idxSum y.length
      (fun i => ((olsSlope y - a) * (i : ℚ) + (olsIntercept y - b)) ^ 2) := by
    unfold idxSum
    exact Finset.sum_nonneg fun i _ => sq_nonneg _
  linarith

/-- C2: on 3 or more records, predict_next_sleep returns the degree-1
least-squares line over (index, sleepHours), index 0..n-1, evaluated at
index n; the fitted coefficients minimise the sum of squared errors over
all lines.  On sleep hours [6,7,8] it returns 9 and on [7,7,7,7] it
returns exactly 7. -/
theorem C2_predict :
    (∀ df : List DailyRecord, 3 ≤ df.length →
      predict_next_sleep df
        = some (olsSlope (df.map DailyRecord.sleepHours)
                  * ((df.map DailyRecord.sleepHours).length : ℚ)
                + olsIntercept (df.map DailyRecord.sleepHours))
      ∧ ∀ a b : ℚ,
          sse (df.map DailyRecord.sleepHours)
              (olsSlope (df.map DailyRecord.sleepHours))
              (olsIntercept (df.map DailyRecord.sleepHours))
            ≤ sse (df.map DailyRecord.sleepHours) a b)
    ∧ predict_next_sleep
        [⟨"2024-01-01", 6, 5⟩, ⟨"2024-01-02", 7, 5⟩, ⟨"2024-01-03", 8, 5⟩]
        = some 9
    ∧ predict_next_sleep
        [⟨"2024-01-01", 7, 5⟩, ⟨"2024-01-02", 7, 5⟩, ⟨"2024-01-03", 7, 5⟩,
         ⟨"2024-01-04", 7, 5⟩]
        = some 7 := by
  refine ⟨?_, ?_, ?_⟩
  · intro df h3
    constructor
    · unfold predict_next_sleep
      rw [if_neg (by omega)]
    · intro a b
      exact ols_min (df.map DailyRecord.sleepHours)
        (by rw [List.length_map]; omega) a b
  · norm_num [predict_next_sleep, olsSlope, olsIntercept, idxSum, yval,
      Finset.sum_range_succ, Finset.sum_range_zero, List.getD]
  · norm_num [predict_next_sleep, olsSlope, olsIntercept, idxSum, yval,
      Finset.sum_range_succ, Finset.sum_range_zero, List.getD]

/-- Witness for C2 on the records with sleep hours [6,7,8]: there are at
least 3 records, and the fitted line beats the zero line in sum of
squared errors. -/
theorem C2_predict_witness :
    sse [6, 7, 8] (olsSlope [6, 7, 8]) (olsIntercept [6, 7, 8])
      ≤ sse [6, 7, 8] 0 0 := by
  have h := (C2_predict.1
    [⟨"2024-01-01", 6, 5⟩, ⟨"2024-01-02", 7, 5⟩, ⟨"2024-01-03", 8, 5⟩]
    (by decide)).2 0 0
  exact h
